import Mathlib

/-!
Verification of the dependabot-alert-bridge webhook server (index.ts and
config.ts). The server receives GitHub `dependabot_alert` webhook deliveries,
validates them (URL, method, headers, body size, HMAC signature, JSON shape),
normalizes the affected dependency names, and issues one `repository_dispatch`
call per handled alert.

Modelling choices (shallow embedding):
* Pure data transformations (dependency normalization, field validation,
  dispatch payload construction) are translated directly from the source.
* External library calls are modelled as explicit parameters or effects:
  `webhooks.verify` (HMAC check) is a function parameter
  `verify : List Nat -> String -> Bool` over the raw body bytes;
  `JSON.parse` plus the typed field accesses of the handler are a parameter
  `parse : List Nat -> Option AlertPayload` (returning `none` on malformed
  JSON); the awaited `appAuth` and `githubRequest` calls are recorded as
  effects in a trace when they are issued, and whether each issued await
  resolves or rejects is supplied by outcome oracles
  `authOk : Nat -> Bool` and `dispatchOk : GithubDispatch -> Bool` — a
  rejection after issuance propagates to the server's catch and is
  answered 500, with the already-issued effects still in the trace.
* `webhooks.on([dependabot_alert.created, .reopened, .reintroduced,
  .auto_reopened], handler)` registers the handler under the action-qualified
  event keys; `webhooks.receive` invokes hooks registered for
  `name.action` (plus logging-only hooks). Hence the handler runs exactly
  when the payload's `action` field is one of the four subscribed actions.
  A handler exception causes `webhooks.receive` to reject, which the server's
  catch turns into a 500 response.
* JavaScript truthiness on strings (empty string is falsy) and on numbers
  (0 is falsy) is modelled explicitly at each use site.
* `Array.prototype.sort(comparefn)` with the locale-aware comparator
  `a.localeCompare(b)` is modelled as a stable insertion sort parameterized
  by an abstract comparator `cmp : String -> String -> Ordering`; theorems
  assume only the consistency properties (asymmetry, transitivity) that the
  ECMAScript specification requires of a consistent comparator.
-/

namespace Bridge

/-- Whitespace test used by the model of `String.prototype.trim`:
space, tab, line feed, carriage return, vertical tab, form feed,
no-break space, and the byte-order mark. -/
def isJsWhitespace (c : Char) : Bool :=
  c = ' ' || c = '\t' || c = '\n' || c = '\r' || c = '\x0b' ||
  c = '\x0c' || c = '\u00a0' || c = '\ufeff'

/-- Character-list form of trimming: drop leading whitespace, then drop
trailing whitespace (by reversing, dropping, and reversing back). -/
def trimChars (l : List Char) : List Char :=
  ((l.dropWhile isJsWhitespace).reverse.dropWhile isJsWhitespace).reverse

/-- Model of `String.prototype.trim` (used as `name.trim()` in index.ts). -/
def jsTrim (s : String) : String :=
  ⟨trimChars s.data⟩

/-- Model of `String.prototype.toLowerCase` (ASCII case folding), used on
the ecosystem field. -/
def jsToLower (s : String) : String :=
  ⟨s.data.map Char.toLower⟩

/-- Model of iterating a JavaScript `Set` built from a list: duplicates are
removed keeping the first occurrence, in insertion order. `seen` accumulates
the elements already emitted. -/
def jsSetDedupAux (seen : List String) : List String → List String
  | [] => []
  | x :: xs =>
      if x ∈ seen then jsSetDedupAux seen xs
      else x :: jsSetDedupAux (x :: seen) xs

/-- Model of `[...new Set(dependencies)]` in index.ts. -/
def jsSetDedup (l : List String) : List String :=
  jsSetDedupAux [] l

/-- Insert `x` into `l`, placing it before the first element `y` with
`cmp x y ≠ gt`. This is the insertion step of a stable sort. -/
def sortInsert (cmp : String → String → Ordering) (x : String) :
    List String → List String
  | [] => [x]
  | y :: ys =>
      if cmp x y = Ordering.gt then y :: sortInsert cmp x ys
      else x :: y :: ys

/-- Stable insertion sort by a comparator; models
`array.sort((a, b) => a.localeCompare(b))` in index.ts (for a consistent
comparator, the ECMAScript stable sort result is unique, so any stable
sorting algorithm is a faithful model). -/
def jsSort (cmp : String → String → Ordering) : List String → List String
  | [] => []
  | x :: xs => sortInsert cmp x (jsSort cmp xs)

/-- The trim / filter-nonempty / dedupe / sort pipeline applied to the
string-valued dependency names (index.ts lines 58-70, after the
`typeof name === 'string'` filter). -/
def normalizeNames (cmp : String → String → Ordering) (l : List String) :
    List String :=
  jsSort cmp (jsSetDedup ((l.map jsTrim).filter (fun s => s ≠ "")))

/-- Full dependency normalization from index.ts lines 58-70: the input is
the direct package name followed by the advisory's vulnerability package
names, each possibly absent (`Option String` models
`string | undefined | null`); non-strings are dropped by
`.filter((name): name is string => typeof name === 'string')`, then the
names are trimmed, empties discarded, deduplicated via `Set`, and sorted
by the comparator. -/
def normalizedDependencies (cmp : String → String → Ordering)
    (names : List (Option String)) : List String :=
  normalizeNames cmp (names.filterMap id)

/-- The `alert.dependency.package` object (and the `package` object inside a
vulnerability record): a name and an ecosystem, each possibly absent. -/
structure PackageRef where
  name : Option String
  ecosystem : Option String
deriving DecidableEq

/-- One entry of `alert.security_advisory.vulnerabilities`; the handler only
reads `vulnerability.package.name`. -/
structure VulnerabilityRef where
  packageName : Option String
deriving DecidableEq

/-- The decoded webhook payload, restricted to the fields the handler in
index.ts reads. `Option` fields model values that may be absent in the JSON;
`action` is the event action string used by the webhooks library to select
handlers. -/
structure AlertPayload where
  action : Option String
  alertNumber : Nat
  dependencyPackage : Option PackageRef
  ghsaId : String
  severity : String
  vulnerabilities : List VulnerabilityRef
  installationId : Option Nat
  repoOwner : String
  repoName : String
deriving DecidableEq

/-- The `DispatchPayload` type of index.ts (the `client_payload` of the
outbound `repository_dispatch` call). -/
structure DispatchPayload where
  alert_number : Nat
  ghsa_id : String
  severity : String
  ecosystem : String
  dependencies : List String
deriving DecidableEq

/-- One outbound `POST /repos/owner/repo/dispatches` call as issued by
index.ts lines 95-103. -/
structure GithubDispatch where
  owner : String
  repo : String
  event_type : String
  client_payload : DispatchPayload
deriving DecidableEq

/-- The dependency-name list the handler builds at index.ts lines 58-63:
the direct package name followed by every vulnerability package name. -/
def alertNames (directPackage : PackageRef) (p : AlertPayload) :
    List (Option String) :=
  directPackage.name :: p.vulnerabilities.map VulnerabilityRef.packageName

/-- The validation and payload-construction part of the `dependabot_alert`
handler, index.ts lines 48-88. Errors are the thrown `Error` messages;
success carries the installation id that is then passed to `appAuth` and
the dispatch call that is then passed to `githubRequest` (those two awaited
network calls are modelled in `receiveEvent`). JavaScript falsiness is
modelled explicitly: a missing or empty `ecosystem` string and a missing
or zero `installation.id` both fail their checks. -/
def handleAlert (cmp : String → String → Ordering) (p : AlertPayload) :
    Except String (Nat × GithubDispatch) :=
  match p.dependencyPackage with
  | none => .error "Missing alert.dependency.package"
  | some directPackage =>
    match directPackage.ecosystem with
    | none => .error "Missing alert.dependency.package.ecosystem"
    | some eco =>
      if eco = "" then .error "Missing alert.dependency.package.ecosystem"
      else
        if normalizedDependencies cmp (alertNames directPackage p) = [] then
          .error "No dependency names in dependabot alert payload"
        else
          match p.installationId with
          | none => .error "Missing installation.id in webhook payload"
          | some installationId =>
            if installationId = 0 then
              .error "Missing installation.id in webhook payload"
            else
              .ok (installationId,
                { owner := p.repoOwner
                  repo := p.repoName
                  event_type := "dependabot-alert-opened"
                  client_payload :=
                    { alert_number := p.alertNumber
                      ghsa_id := p.ghsaId
                      severity := p.severity
                      ecosystem := jsToLower eco
                      dependencies :=
                        normalizedDependencies cmp (alertNames directPackage p) } })

/-- The actions the handler is registered for (index.ts lines 41-46). -/
def subscribedActions : List String :=
  ["created", "reopened", "reintroduced", "auto_reopened"]

/-- Whether `webhooks.receive` invokes the registered handler for a payload:
true exactly when the payload carries an `action` that is one of the
subscribed action-qualified event names. -/
def actionFires : Option String → Bool
  | some a => subscribedActions.contains a
  | none => false

/-- One inbound HTTP request as seen by the `createServer` callback.
Headers are `Option String` (Node returns a plain string for these headers);
the body arrives as a list of byte chunks. -/
structure HttpRequest where
  method : String
  url : Option String
  deliveryHeader : Option String
  eventHeader : Option String
  signatureHeader : Option String
  bodyChunks : List (List Nat)
deriving DecidableEq

/-- The JSON response bodies index.ts writes, as an enumeration:
`errorCode c` is the object with an `error` field `c`; `skipped e` is the
unsupported-event acknowledgement carrying the event name; `accepted` is
the final acceptance object; `healthOk` is the health-check body. -/
inductive RespBody where
  | errorCode (code : String)
  | healthOk
  | skipped (event : String)
  | accepted
deriving DecidableEq

/-- An HTTP response: status code plus structured body. -/
structure HttpResponse where
  status : Nat
  body : RespBody
deriving DecidableEq

/-- Observable side effects of handling one request, in order:
`sigCheck` is the call to `webhooks.verify`; `parseAttempt` is the call to
`JSON.parse`; `authCall` is the installation-token exchange via `appAuth`;
`dispatchCall` is the outbound `repository_dispatch` request. -/
inductive Effect where
  | sigCheck
  | parseAttempt
  | authCall (installationId : Nat)
  | dispatchCall (d : GithubDispatch)
deriving DecidableEq

/-- Number of outbound dispatch calls in an effect trace. -/
def dispatchCount (eff : List Effect) : Nat :=
  eff.countP fun e => match e with
    | Effect.dispatchCall _ => true
    | _ => false

/-- Number of credential exchanges in an effect trace. -/
def authCount (eff : List Effect) : Nat :=
  eff.countP fun e => match e with
    | Effect.authCall _ => true
    | _ => false

/-- The 1 MiB body ceiling of index.ts line 173. -/
def byteLimit : Nat := 1024 * 1024

/-- The body-read loop of index.ts lines 166-181: accumulate chunks,
tracking the running byte total; as soon as the total exceeds the ceiling,
abort with `none` (the 413 path). Otherwise return the concatenated bytes. -/
def readBodyAux (total : Nat) : List (List Nat) → Option (List Nat)
  | [] => some []
  | c :: cs =>
      if total + c.length > byteLimit then none
      else (readBodyAux (total + c.length) cs).map (fun rest => c ++ rest)

/-- Read the whole body, enforcing the byte ceiling. -/
def readBody (chunks : List (List Nat)) : Option (List Nat) :=
  readBodyAux 0 chunks

/-- Model of `new URL(url, base).pathname` restricted to the request paths
the server compares against: the path is the prefix of the request target
before any query or fragment. -/
def pathOf (u : String) : String :=
  ⟨u.data.takeWhile (fun c => c ≠ '?' ∧ c ≠ '#')⟩

/-- Dispatching inside `webhooks.receive` (index.ts line 201 together with
the registration at lines 40-47): the handler runs exactly when the payload
action is subscribed; a handler error rejects the `receive` promise, which
the server's catch (lines 209-213) reports as a 500. The two awaited
outbound calls of the handler body (index.ts lines 90-103) are fallible:
`authOk installationId` tells whether the issued `appAuth` await resolves,
and `dispatchOk d` whether the issued `githubRequest` dispatch await
resolves; a rejection of either await happens after that call was issued
(its effect is already in the trace) and surfaces as the 500 error path. -/
def receiveEvent (authOk : Nat → Bool) (dispatchOk : GithubDispatch → Bool)
    (cmp : String → String → Ordering) (p : AlertPayload) :
    HttpResponse × List Effect :=
  if actionFires p.action then
    match handleAlert cmp p with
    | .ok (installationId, d) =>
        if authOk installationId then
          if dispatchOk d then
            (⟨202, RespBody.accepted⟩,
             [Effect.authCall installationId, Effect.dispatchCall d])
          else
            (⟨500, RespBody.errorCode "internal_error"⟩,
             [Effect.authCall installationId, Effect.dispatchCall d])
        else
          (⟨500, RespBody.errorCode "internal_error"⟩,
           [Effect.authCall installationId])
    | .error _ => (⟨500, RespBody.errorCode "internal_error"⟩, [])
  else (⟨202, RespBody.accepted⟩, [])

/-- The `createServer` request callback of index.ts lines 115-213, with the
external HMAC check, JSON decoding, and the outcomes of the two awaited
outbound calls supplied as parameters. Returns the response written and
the trace of observable effects. -/
def handleRequest (verify : List Nat → String → Bool)
    (parse : List Nat → Option AlertPayload)
    (authOk : Nat → Bool) (dispatchOk : GithubDispatch → Bool)
    (cmp : String → String → Ordering) (req : HttpRequest) :
    HttpResponse × List Effect :=
  match req.url with
  | none => (⟨400, RespBody.errorCode "missing_url"⟩, [])
  | some u =>
    if req.method = "GET" ∧ pathOf u = "/health" then
      (⟨200, RespBody.healthOk⟩, [])
    else if req.method ≠ "POST" ∨ (pathOf u ≠ "/webhook" ∧ pathOf u ≠ "/") then
      (⟨404, RespBody.errorCode "not_found"⟩, [])
    else
      -- JavaScript falsiness: a missing header and an empty header string
      -- both fail the `!deliveryId || !eventName || !signature` check.
      let deliveryId := req.deliveryHeader.getD ""
      let eventName := req.eventHeader.getD ""
      let signature := req.signatureHeader.getD ""
      if deliveryId = "" ∨ eventName = "" ∨ signature = "" then
        (⟨400, RespBody.errorCode "missing_github_headers"⟩, [])
      else if eventName ≠ "dependabot_alert" then
        (⟨202, RespBody.skipped eventName⟩, [])
      else
        match readBody req.bodyChunks with
        | none => (⟨413, RespBody.errorCode "payload_too_large"⟩, [])
        | some payloadBytes =>
          if verify payloadBytes signature = false then
            (⟨401, RespBody.errorCode "invalid_signature"⟩, [Effect.sigCheck])
          else
            match parse payloadBytes with
            | none =>
                (⟨400, RespBody.errorCode "invalid_json"⟩,
                 [Effect.sigCheck, Effect.parseAttempt])
            | some p =>
                let r := receiveEvent authOk dispatchOk cmp p
                (r.1, Effect.sigCheck :: Effect.parseAttempt :: r.2)

/-- Comparison of two characters by code point; building block of the
concrete comparator used to instantiate theorems. -/
def charCmp (a b : Char) : Ordering :=
  if a.toNat < b.toNat then Ordering.lt
  else if b.toNat < a.toNat then Ordering.gt
  else Ordering.eq

/-- Lexicographic comparison of character lists by code point. -/
def lexCompareChars : List Char → List Char → Ordering
  | [], [] => Ordering.eq
  | [], _ :: _ => Ordering.lt
  | _ :: _, [] => Ordering.gt
  | a :: as, b :: bs =>
      match charCmp a b with
      | Ordering.eq => lexCompareChars as bs
      | o => o

/-- A concrete consistent string comparator (code-point lexicographic
order), used to instantiate the abstract locale comparator in witnesses
and concrete scenarios. -/
def lexCompare (a b : String) : Ordering :=
  lexCompareChars a.data b.data

/-! Lemmas about trimming. -/

theorem dropWhile_head_false {α : Type} (p : α → Bool) (l : List α) (c : α)
    (h : (l.dropWhile p).head? = some c) : p c = false := by
  induction l with
  | nil => simp [List.dropWhile] at h
  | cons a l ih =>
    by_cases hp : p a
    · rw [List.dropWhile_cons_of_pos hp] at h
      exact ih h
    · rw [List.dropWhile_cons_of_neg hp] at h
      simp at h
      rw [← h]
      exact Bool.eq_false_iff.mpr hp

theorem dropWhile_eq_self_of_head {α : Type} (p : α → Bool) (l : List α)
    (h : ∀ c, l.head? = some c → p c = false) : l.dropWhile p = l := by
  cases l with
  | nil => rfl
  | cons a l =>
    have ha : p a = false := h a rfl
    simp [List.dropWhile, ha]

theorem dropWhile_dropWhile {α : Type} (p : α → Bool) (l : List α) :
    (l.dropWhile p).dropWhile p = l.dropWhile p := by
  apply dropWhile_eq_self_of_head
  intro c hc
  exact dropWhile_head_false p l c hc

theorem exists_append_dropWhile {α : Type} (p : α → Bool) (l : List α) :
    ∃ t, l = t ++ l.dropWhile p := by
  induction l with
  | nil => exact ⟨[], rfl⟩
  | cons a l ih =>
    by_cases hp : p a
    · obtain ⟨t, ht⟩ := ih
      exact ⟨a :: t, by rw [List.dropWhile_cons_of_pos hp, List.cons_append, ← ht]⟩
    · exact ⟨[], by rw [List.dropWhile_cons_of_neg hp, List.nil_append]⟩

theorem trimChars_append (l : List Char) :
    ∃ t, l.dropWhile isJsWhitespace = trimChars l ++ t := by
  obtain ⟨t, ht⟩ :=
    exists_append_dropWhile isJsWhitespace (l.dropWhile isJsWhitespace).reverse
  refine ⟨t.reverse, ?_⟩
  have h := congrArg List.reverse ht
  rw [List.reverse_reverse, List.reverse_append] at h
  exact h

theorem trimChars_head (l : List Char) (c : Char)
    (h : (trimChars l).head? = some c) : isJsWhitespace c = false := by
  obtain ⟨t, ht⟩ := trimChars_append l
  cases hr : trimChars l with
  | nil => rw [hr] at h; simp at h
  | cons a r =>
    rw [hr] at h
    simp at h
    apply dropWhile_head_false isJsWhitespace l c
    rw [ht, hr, h]
    rfl

theorem trimChars_idem (l : List Char) :
    trimChars (trimChars l) = trimChars l := by
  have hfront : (trimChars l).dropWhile isJsWhitespace = trimChars l :=
    dropWhile_eq_self_of_head _ _ (trimChars_head l)
  have hrev : (trimChars l).reverse =
      ((l.dropWhile isJsWhitespace).reverse).dropWhile isJsWhitespace := by
    simp [trimChars]
  have hback : ((trimChars l).reverse).dropWhile isJsWhitespace =
      (trimChars l).reverse := by
    rw [hrev]
    exact dropWhile_dropWhile _ _
  show ((((trimChars l).dropWhile isJsWhitespace).reverse).dropWhile
      isJsWhitespace).reverse = trimChars l
  rw [hfront, hback, List.reverse_reverse]

theorem jsTrim_idem (s : String) : jsTrim (jsTrim s) = jsTrim s := by
  show String.mk (trimChars (trimChars s.data)) = String.mk (trimChars s.data)
  rw [trimChars_idem]

theorem jsTrim_not_all_whitespace (s : String) (h : jsTrim s ≠ "") :
    ∃ c ∈ (jsTrim s).data, isJsWhitespace c = false := by
  cases hd : (jsTrim s).data with
  | nil =>
    exact absurd (String.ext hd) h
  | cons a r =>
    refine ⟨a, List.mem_cons_self a r, ?_⟩
    apply trimChars_head s.data
    show (jsTrim s).data.head? = some a
    rw [hd]
    rfl

/-! Lemmas about deduplication. -/

theorem mem_jsSetDedupAux (x : String) :
    ∀ (seen l : List String), x ∈ jsSetDedupAux seen l ↔ x ∈ l ∧ x ∉ seen := by
  intro seen l
  induction l generalizing seen with
  | nil => simp [jsSetDedupAux]
  | cons y ys ih =>
    by_cases hy : y ∈ seen
    · rw [jsSetDedupAux, if_pos hy, ih]
      constructor
      · rintro ⟨hx, hns⟩
        exact ⟨List.mem_cons_of_mem y hx, hns⟩
      · rintro ⟨hx, hns⟩
        rcases List.mem_cons.mp hx with heq | hmem
        · exact absurd (heq ▸ hy) hns
        · exact ⟨hmem, hns⟩
    · rw [jsSetDedupAux, if_neg hy]
      constructor
      · intro hx
        rcases List.mem_cons.mp hx with heq | hmem
        · exact ⟨heq ▸ List.mem_cons_self y ys, heq ▸ hy⟩
        · obtain ⟨hys, hns⟩ := (ih (y :: seen)).mp hmem
          exact ⟨List.mem_cons_of_mem y hys,
            fun hc => hns (List.mem_cons_of_mem y hc)⟩
      · rintro ⟨hx, hns⟩
        rcases List.mem_cons.mp hx with heq | hmem
        · exact heq ▸ List.mem_cons_self y _
        · by_cases hxy : x = y
          · exact hxy ▸ List.mem_cons_self y _
          · exact List.mem_cons_of_mem y ((ih (y :: seen)).mpr
              ⟨hmem, by simp [hxy, hns]⟩)

theorem nodup_jsSetDedupAux :
    ∀ (seen l : List String), (jsSetDedupAux seen l).Nodup := by
  intro seen l
  induction l generalizing seen with
  | nil => exact List.nodup_nil
  | cons y ys ih =>
    by_cases hy : y ∈ seen
    · rw [jsSetDedupAux, if_pos hy]
      exact ih seen
    · rw [jsSetDedupAux, if_neg hy]
      refine List.nodup_cons.mpr ⟨?_, ih (y :: seen)⟩
      intro hc
      exact ((mem_jsSetDedupAux y (y :: seen) ys).mp hc).2
        (List.mem_cons_self y seen)

theorem jsSetDedupAux_eq_self :
    ∀ (seen l : List String), l.Nodup → (∀ x ∈ l, x ∉ seen) →
      jsSetDedupAux seen l = l := by
  intro seen l
  induction l generalizing seen with
  | nil => intro _ _; rfl
  | cons y ys ih =>
    intro hnd hdisj
    have hy : y ∉ seen := hdisj y (List.mem_cons_self y ys)
    rw [jsSetDedupAux, if_neg hy]
    congr 1
    apply ih (y :: seen) (List.nodup_cons.mp hnd).2
    intro x hx
    intro hc
    rcases List.mem_cons.mp hc with heq | hmem
    · exact (List.nodup_cons.mp hnd).1 (heq ▸ hx)
    · exact hdisj x (List.mem_cons_of_mem y hx) hmem

theorem mem_jsSetDedup (x : String) (l : List String) :
    x ∈ jsSetDedup l ↔ x ∈ l := by
  rw [jsSetDedup, mem_jsSetDedupAux]
  simp

theorem nodup_jsSetDedup (l : List String) : (jsSetDedup l).Nodup :=
  nodup_jsSetDedupAux [] l

theorem jsSetDedup_eq_self (l : List String) (h : l.Nodup) :
    jsSetDedup l = l :=
  jsSetDedupAux_eq_self [] l h (by simp)

/-! Lemmas about the comparator sort. -/

/-- The non-strict order induced by a comparator: `a` may come before `b`. -/
def cmpLe (cmp : String → String → Ordering) (a b : String) : Prop :=
  cmp a b ≠ Ordering.gt

theorem perm_sortInsert (cmp : String → String → Ordering) (x : String) :
    ∀ l : List String, List.Perm (sortInsert cmp x l) (x :: l) := by
  intro l
  induction l with
  | nil => exact List.Perm.refl [x]
  | cons y ys ih =>
    rw [sortInsert]
    by_cases hc : cmp x y = Ordering.gt
    · rw [if_pos hc]
      exact (ih.cons y).trans (List.Perm.swap x y ys)
    · rw [if_neg hc]

theorem perm_jsSort (cmp : String → String → Ordering) :
    ∀ l : List String, List.Perm (jsSort cmp l) l := by
  intro l
  induction l with
  | nil => exact List.Perm.refl []
  | cons x xs ih =>
    exact (perm_sortInsert cmp x (jsSort cmp xs)).trans (ih.cons x)

theorem mem_sortInsert (cmp : String → String → Ordering) (x z : String)
    (l : List String) : z ∈ sortInsert cmp x l ↔ z = x ∨ z ∈ l := by
  rw [(perm_sortInsert cmp x l).mem_iff]
  exact List.mem_cons

theorem pairwise_sortInsert (cmp : String → String → Ordering)
    (htot : ∀ a b, cmp a b = Ordering.gt → cmp b a ≠ Ordering.gt)
    (htrans : ∀ a b c, cmp a b ≠ Ordering.gt → cmp b c ≠ Ordering.gt →
      cmp a c ≠ Ordering.gt)
    (x : String) :
    ∀ l : List String, l.Pairwise (cmpLe cmp) →
      (sortInsert cmp x l).Pairwise (cmpLe cmp) := by
  intro l
  induction l with
  | nil =>
    intro _
    exact List.pairwise_singleton (cmpLe cmp) x
  | cons y ys ih =>
    intro hp
    rw [sortInsert]
    by_cases hc : cmp x y = Ordering.gt
    · rw [if_pos hc]
      refine List.pairwise_cons.mpr ⟨?_, ih (List.pairwise_cons.mp hp).2⟩
      intro z hz
      rcases (mem_sortInsert cmp x z ys).mp hz with hzx | hzys
      · exact hzx ▸ htot x y hc
      · exact (List.pairwise_cons.mp hp).1 z hzys
    · rw [if_neg hc]
      refine List.pairwise_cons.mpr ⟨?_, hp⟩
      intro z hz
      rcases List.mem_cons.mp hz with hzy | hzys
      · exact hzy ▸ hc
      · exact htrans x y z hc ((List.pairwise_cons.mp hp).1 z hzys)

theorem pairwise_jsSort (cmp : String → String → Ordering)
    (htot : ∀ a b, cmp a b = Ordering.gt → cmp b a ≠ Ordering.gt)
    (htrans : ∀ a b c, cmp a b ≠ Ordering.gt → cmp b c ≠ Ordering.gt →
      cmp a c ≠ Ordering.gt) :
    ∀ l : List String, (jsSort cmp l).Pairwise (cmpLe cmp) := by
  intro l
  induction l with
  | nil => exact List.Pairwise.nil
  | cons x xs ih => exact pairwise_sortInsert cmp htot htrans x _ ih

theorem sortInsert_eq_cons (cmp : String → String → Ordering) (x : String)
    (l : List String) (h : (x :: l).Pairwise (cmpLe cmp)) :
    sortInsert cmp x l = x :: l := by
  cases l with
  | nil => rfl
  | cons y ys =>
    rw [sortInsert,
      if_neg ((List.pairwise_cons.mp h).1 y (List.mem_cons_self y ys))]

theorem jsSort_eq_self (cmp : String → String → Ordering) :
    ∀ l : List String, l.Pairwise (cmpLe cmp) → jsSort cmp l = l := by
  intro l
  induction l with
  | nil => intro _; rfl
  | cons x xs ih =>
    intro hp
    rw [jsSort, ih (List.pairwise_cons.mp hp).2, sortInsert_eq_cons cmp x xs hp]

/-! Lemmas about the composed normalization. -/

theorem list_map_eq_self {α : Type} (f : α → α) :
    ∀ l : List α, (∀ x ∈ l, f x = x) → l.map f = l := by
  intro l
  induction l with
  | nil => intro _; rfl
  | cons x xs ih =>
    intro h
    rw [List.map_cons, h x (List.mem_cons_self x xs),
      ih fun y hy => h y (List.mem_cons_of_mem x hy)]

theorem mem_normalizeNames (cmp : String → String → Ordering)
    (l : List String) (e : String) (h : e ∈ normalizeNames cmp l) :
    (∃ s ∈ l, e = jsTrim s) ∧ e ≠ "" := by
  rw [normalizeNames, (perm_jsSort cmp _).mem_iff, mem_jsSetDedup,
    List.mem_filter] at h
  obtain ⟨hmap, hne⟩ := h
  obtain ⟨s, hs, hts⟩ := List.mem_map.mp hmap
  exact ⟨⟨s, hs, hts.symm⟩, by simpa using hne⟩

theorem nodup_normalizeNames (cmp : String → String → Ordering)
    (l : List String) : (normalizeNames cmp l).Nodup := by
  rw [normalizeNames]
  exact ((perm_jsSort cmp _).nodup_iff).mpr (nodup_jsSetDedup _)

theorem normalizeNames_idem (cmp : String → String → Ordering)
    (htot : ∀ a b, cmp a b = Ordering.gt → cmp b a ≠ Ordering.gt)
    (htrans : ∀ a b c, cmp a b ≠ Ordering.gt → cmp b c ≠ Ordering.gt →
      cmp a c ≠ Ordering.gt)
    (l : List String) :
    normalizeNames cmp (normalizeNames cmp l) = normalizeNames cmp l := by
  have hmem := mem_normalizeNames cmp l
  have h1 : (normalizeNames cmp l).map jsTrim = normalizeNames cmp l := by
    apply list_map_eq_self
    intro e he
    obtain ⟨⟨s, _, hes⟩, _⟩ := hmem e he
    rw [hes, jsTrim_idem]
  have h2 : (normalizeNames cmp l).filter (fun s => s ≠ "") =
      normalizeNames cmp l := by
    rw [List.filter_eq_self]
    intro e he
    simpa using (hmem e he).2
  have h3 : jsSetDedup (normalizeNames cmp l) = normalizeNames cmp l :=
    jsSetDedup_eq_self _ (nodup_normalizeNames cmp l)
  have h4 : jsSort cmp (normalizeNames cmp l) = normalizeNames cmp l := by
    apply jsSort_eq_self
    rw [normalizeNames]
    exact pairwise_jsSort cmp htot htrans _
  show jsSort cmp (jsSetDedup (((normalizeNames cmp l).map jsTrim).filter
    (fun s => s ≠ ""))) = normalizeNames cmp l
  rw [h1, h2, h3, h4]

/-! Consistency of the concrete code-point comparator. -/

theorem charCmp_cases (a b : Char) :
    (charCmp a b = Ordering.lt ∧ a.toNat < b.toNat) ∨
    (charCmp a b = Ordering.eq ∧ a.toNat = b.toNat) ∨
    (charCmp a b = Ordering.gt ∧ b.toNat < a.toNat) := by
  unfold charCmp
  rcases Nat.lt_trichotomy a.toNat b.toNat with h | h | h
  · exact Or.inl ⟨by rw [if_pos h], h⟩
  · exact Or.inr (Or.inl ⟨by rw [if_neg (by omega), if_neg (by omega)], h⟩)
  · exact Or.inr (Or.inr ⟨by rw [if_neg (by omega), if_pos h], h⟩)

theorem lexCompareChars_swap :
    ∀ l1 l2 : List Char,
      lexCompareChars l2 l1 = (lexCompareChars l1 l2).swap := by
  intro l1
  induction l1 with
  | nil => intro l2; cases l2 <;> rfl
  | cons a as ih =>
    intro l2
    cases l2 with
    | nil => rfl
    | cons b bs =>
      show (match charCmp b a with
        | Ordering.eq => lexCompareChars bs as
        | o => o) =
        (match charCmp a b with
        | Ordering.eq => lexCompareChars as bs
        | o => o).swap
      rcases charCmp_cases a b with ⟨hab, nab⟩ | ⟨hab, nab⟩ | ⟨hab, nab⟩ <;>
        rcases charCmp_cases b a with ⟨hba, nba⟩ | ⟨hba, nba⟩ | ⟨hba, nba⟩ <;>
          rw [hab, hba] <;> simp [Ordering.swap] <;>
            first | omega | exact ih bs

theorem lexCompareChars_le_trans :
    ∀ l1 l2 l3 : List Char, lexCompareChars l1 l2 ≠ Ordering.gt →
      lexCompareChars l2 l3 ≠ Ordering.gt →
        lexCompareChars l1 l3 ≠ Ordering.gt := by
  intro l1
  induction l1 with
  | nil =>
    intro l2 l3 _ _
    cases l3 <;> simp [lexCompareChars]
  | cons a as ih =>
    intro l2 l3 h12 h23
    cases l2 with
    | nil => simp [lexCompareChars] at h12
    | cons b bs =>
      cases l3 with
      | nil => simp [lexCompareChars] at h23
      | cons c cs =>
        simp only [lexCompareChars] at h12 h23 ⊢
        rcases charCmp_cases a b with ⟨hab, nab⟩ | ⟨hab, nab⟩ | ⟨hab, nab⟩ <;>
          rcases charCmp_cases b c with ⟨hbc, nbc⟩ | ⟨hbc, nbc⟩ | ⟨hbc, nbc⟩ <;>
            rcases charCmp_cases a c with ⟨hac, nac⟩ | ⟨hac, nac⟩ | ⟨hac, nac⟩ <;>
              rw [hab] at h12 <;> rw [hbc] at h23 <;> rw [hac] <;>
                simp at h12 h23 ⊢ <;>
                  first | omega | exact ih bs cs h12 h23

theorem lexCompare_gt_asymm :
    ∀ a b : String, lexCompare a b = Ordering.gt →
      lexCompare b a ≠ Ordering.gt := by
  intro a b h
  rw [lexCompare] at h ⊢
  rw [lexCompareChars_swap, h]
  decide

theorem lexCompare_le_trans :
    ∀ a b c : String, lexCompare a b ≠ Ordering.gt →
      lexCompare b c ≠ Ordering.gt → lexCompare a c ≠ Ordering.gt := by
  intro a b c
  exact lexCompareChars_le_trans a.data b.data c.data

/-! Claims C3 and C4. -/

/-- C3: for every input list of dependency names (direct package name
followed by the related package names, each possibly absent) and every
consistent comparator, the normalized output is duplicate-free, sorted
ascending with respect to the comparator, contains no empty or
whitespace-only entry, and every entry is the trimmed form of some name
present in the input. -/
theorem c3_normalization_properties (cmp : String → String → Ordering)
    (names : List (Option String))
    (htot : ∀ a b, cmp a b = Ordering.gt → cmp b a ≠ Ordering.gt)
    (htrans : ∀ a b c, cmp a b ≠ Ordering.gt → cmp b c ≠ Ordering.gt →
      cmp a c ≠ Ordering.gt) :
    (normalizedDependencies cmp names).Nodup ∧
    (normalizedDependencies cmp names).Pairwise (cmpLe cmp) ∧
    (∀ e ∈ normalizedDependencies cmp names,
      e ≠ "" ∧ ∃ c ∈ e.data, isJsWhitespace c = false) ∧
    (∀ e ∈ normalizedDependencies cmp names,
      ∃ s, some s ∈ names ∧ e = jsTrim s) := by
  refine ⟨nodup_normalizeNames cmp _, ?_, ?_, ?_⟩
  · rw [normalizedDependencies, normalizeNames]
    exact pairwise_jsSort cmp htot htrans _
  · intro e he
    obtain ⟨⟨s, _, hes⟩, hne⟩ := mem_normalizeNames cmp _ e he
    refine ⟨hne, ?_⟩
    rw [hes]
    exact jsTrim_not_all_whitespace s (hes ▸ hne)
  · intro e he
    obtain ⟨⟨s, hs, hes⟩, _⟩ := mem_normalizeNames cmp _ e he
    obtain ⟨o, ho, hos⟩ := List.mem_filterMap.mp hs
    have hoeq : o = some s := hos
    exact ⟨s, hoeq ▸ ho, hes⟩

/-- Witness for C3: the concrete input containing an untrimmed name, an
absent name, a duplicate, and a whitespace-only name, normalized with the
concrete code-point comparator. -/
theorem c3_witness :
    (normalizedDependencies lexCompare
      [some " b ", none, some "a", some "b", some "  "]).Nodup ∧
    (normalizedDependencies lexCompare
      [some " b ", none, some "a", some "b", some "  "]).Pairwise
        (cmpLe lexCompare) ∧
    (∀ e ∈ normalizedDependencies lexCompare
      [some " b ", none, some "a", some "b", some "  "],
      e ≠ "" ∧ ∃ c ∈ e.data, isJsWhitespace c = false) ∧
    (∀ e ∈ normalizedDependencies lexCompare
      [some " b ", none, some "a", some "b", some "  "],
      ∃ s, some s ∈ [some " b ", none, some "a", some "b", some "  "] ∧
        e = jsTrim s) :=
  c3_normalization_properties lexCompare _ lexCompare_gt_asymm
    lexCompare_le_trans

/-- C4: the trim, filter, dedupe, sort normalization is idempotent for
every input list and every consistent comparator: applying it to its own
output returns that output unchanged. -/
theorem c4_normalization_idempotent (cmp : String → String → Ordering)
    (htot : ∀ a b, cmp a b = Ordering.gt → cmp b a ≠ Ordering.gt)
    (htrans : ∀ a b c, cmp a b ≠ Ordering.gt → cmp b c ≠ Ordering.gt →
      cmp a c ≠ Ordering.gt)
    (l : List String) :
    normalizeNames cmp (normalizeNames cmp l) = normalizeNames cmp l :=
  normalizeNames_idem cmp htot htrans l

/-- Witness for C4 at a concrete input with the code-point comparator. -/
theorem c4_witness :
    normalizeNames lexCompare
      (normalizeNames lexCompare ["b", " a", "b", "", "c "]) =
    normalizeNames lexCompare ["b", " a", "b", "", "c "] :=
  c4_normalization_idempotent lexCompare lexCompare_gt_asymm
    lexCompare_le_trans _

/-! Lemmas about the body-size gate. -/

theorem readBodyAux_none_iff :
    ∀ (cs : List (List Nat)) (total : Nat), total ≤ byteLimit →
      (readBodyAux total cs = none ↔
        byteLimit < total + cs.flatten.length) := by
  intro cs
  induction cs with
  | nil =>
    intro total ht
    simp only [readBodyAux, List.flatten_nil, List.length_nil]
    constructor
    · intro h; exact absurd h (by simp)
    · intro h; omega
  | cons c cs ih =>
    intro total ht
    rw [readBodyAux]
    by_cases hc : total + c.length > byteLimit
    · rw [if_pos hc]
      simp only [List.flatten_cons, List.length_append]
      constructor
      · intro _; omega
      · intro _; trivial
    · rw [if_neg hc]
      push_neg at hc
      rw [Option.map_eq_none', ih (total + c.length) hc,
        List.flatten_cons, List.length_append]
      omega

theorem readBodyAux_some :
    ∀ (cs : List (List Nat)) (total : Nat),
      total + cs.flatten.length ≤ byteLimit →
        readBodyAux total cs = some cs.flatten := by
  intro cs
  induction cs with
  | nil => intro total _; rfl
  | cons c cs ih =>
    intro total h
    rw [List.flatten_cons, List.length_append] at h
    rw [readBodyAux, if_neg (by omega),
      ih (total + c.length) (by omega)]
    rfl

theorem readBody_none_iff (chunks : List (List Nat)) :
    readBody chunks = none ↔ byteLimit < chunks.flatten.length := by
  rw [readBody, readBodyAux_none_iff chunks 0 (Nat.zero_le _)]
  omega

theorem readBody_some (chunks : List (List Nat))
    (h : chunks.flatten.length ≤ byteLimit) :
    readBody chunks = some chunks.flatten :=
  readBodyAux_some chunks 0 (by omega)

/-! Gate preconditions and the bridging lemma for the server pipeline. -/

/-- A request that passes every gate before the body read: it has a URL
whose path is the webhook endpoint, method POST, all three protocol headers
present and non-empty, and event kind `dependabot_alert`. -/
def reachesBodyRead (req : HttpRequest) : Prop :=
  ∃ u, req.url = some u ∧ req.method = "POST" ∧
    (pathOf u = "/webhook" ∨ pathOf u = "/") ∧
    req.deliveryHeader.getD "" ≠ "" ∧
    req.eventHeader = some "dependabot_alert" ∧
    req.signatureHeader.getD "" ≠ ""

theorem handleRequest_of_reachesBodyRead
    (verify : List Nat → String → Bool)
    (parse : List Nat → Option AlertPayload)
    (authOk : Nat → Bool) (dispatchOk : GithubDispatch → Bool)
    (cmp : String → String → Ordering) (req : HttpRequest)
    (h : reachesBodyRead req) :
    handleRequest verify parse authOk dispatchOk cmp req =
      match readBody req.bodyChunks with
      | none => (⟨413, RespBody.errorCode "payload_too_large"⟩, [])
      | some payloadBytes =>
        if verify payloadBytes (req.signatureHeader.getD "") = false then
          (⟨401, RespBody.errorCode "invalid_signature"⟩, [Effect.sigCheck])
        else
          match parse payloadBytes with
          | none =>
              (⟨400, RespBody.errorCode "invalid_json"⟩,
               [Effect.sigCheck, Effect.parseAttempt])
          | some p =>
              ((receiveEvent authOk dispatchOk cmp p).1,
               Effect.sigCheck :: Effect.parseAttempt ::
                 (receiveEvent authOk dispatchOk cmp p).2) := by
  obtain ⟨u, hurl, hm, hp, hd, he, hs⟩ := h
  rcases hp with hp | hp <;>
    simp only [handleRequest, hurl, hm, hp, he, hd, hs, Option.getD_some] <;>
      simp

theorem receiveEvent_shape (authOk : Nat → Bool)
    (dispatchOk : GithubDispatch → Bool)
    (cmp : String → String → Ordering) (p : AlertPayload) :
    receiveEvent authOk dispatchOk cmp p = (⟨202, RespBody.accepted⟩, []) ∨
    receiveEvent authOk dispatchOk cmp p =
      (⟨500, RespBody.errorCode "internal_error"⟩, []) ∨
    (∃ i, receiveEvent authOk dispatchOk cmp p =
        (⟨500, RespBody.errorCode "internal_error"⟩, [Effect.authCall i]) ∧
      authOk i = false) ∨
    (∃ i d, receiveEvent authOk dispatchOk cmp p =
        (⟨202, RespBody.accepted⟩,
         [Effect.authCall i, Effect.dispatchCall d]) ∧
      authOk i = true ∧ dispatchOk d = true) ∨
    (∃ i d, receiveEvent authOk dispatchOk cmp p =
        (⟨500, RespBody.errorCode "internal_error"⟩,
         [Effect.authCall i, Effect.dispatchCall d]) ∧
      authOk i = true ∧ dispatchOk d = false) := by
  rw [receiveEvent]
  by_cases hf : actionFires p.action = true
  · rw [if_pos hf]
    cases hha : handleAlert cmp p with
    | error e => exact Or.inr (Or.inl rfl)
    | ok v =>
      obtain ⟨i, d⟩ := v
      by_cases ha : authOk i = true
      · by_cases hd : dispatchOk d = true
        · refine Or.inr (Or.inr (Or.inr (Or.inl ⟨i, d, ?_, ha, hd⟩)))
          simp only [if_pos ha, if_pos hd]
        · refine Or.inr (Or.inr (Or.inr (Or.inr ⟨i, d, ?_, ha,
            Bool.not_eq_true _ ▸ hd⟩)))
          simp only [if_pos ha, if_neg hd]
      · refine Or.inr (Or.inr (Or.inl ⟨i, ?_, Bool.not_eq_true _ ▸ ha⟩))
        simp only [if_neg ha]
  · rw [if_neg hf]
    exact Or.inl rfl

theorem handleRequest_shape (verify : List Nat → String → Bool)
    (parse : List Nat → Option AlertPayload)
    (authOk : Nat → Bool) (dispatchOk : GithubDispatch → Bool)
    (cmp : String → String → Ordering) (req : HttpRequest) :
    (handleRequest verify parse authOk dispatchOk cmp req).2 = [] ∨
    (handleRequest verify parse authOk dispatchOk cmp req).2 =
      [Effect.sigCheck] ∨
    (handleRequest verify parse authOk dispatchOk cmp req).2 =
      [Effect.sigCheck, Effect.parseAttempt] ∨
    (∃ i, (handleRequest verify parse authOk dispatchOk cmp req).2 =
        [Effect.sigCheck, Effect.parseAttempt, Effect.authCall i] ∧
      authOk i = false ∧
      (handleRequest verify parse authOk dispatchOk cmp req).1 =
        ⟨500, RespBody.errorCode "internal_error"⟩) ∨
    (∃ i d, (handleRequest verify parse authOk dispatchOk cmp req).2 =
        [Effect.sigCheck, Effect.parseAttempt, Effect.authCall i,
         Effect.dispatchCall d] ∧
      authOk i = true ∧
      ((dispatchOk d = true ∧
        (handleRequest verify parse authOk dispatchOk cmp req).1 =
          ⟨202, RespBody.accepted⟩) ∨
       (dispatchOk d = false ∧
        (handleRequest verify parse authOk dispatchOk cmp req).1 =
          ⟨500, RespBody.errorCode "internal_error"⟩))) := by
  simp only [handleRequest]
  split
  · exact Or.inl rfl
  · split
    · exact Or.inl rfl
    · split
      · exact Or.inl rfl
      · split
        · exact Or.inl rfl
        · split
          · exact Or.inl rfl
          · split
            · exact Or.inl rfl
            · split
              · exact Or.inr (Or.inl rfl)
              · split
                · exact Or.inr (Or.inr (Or.inl rfl))
                · rename_i p hp
                  rcases receiveEvent_shape authOk dispatchOk cmp p with
                    h | h | ⟨i, h, ha⟩ | ⟨i, d, h, ha, hd⟩ | ⟨i, d, h, ha, hd⟩
                  · rw [h]
                    exact Or.inr (Or.inr (Or.inl rfl))
                  · rw [h]
                    exact Or.inr (Or.inr (Or.inl rfl))
                  · rw [h]
                    exact Or.inr (Or.inr (Or.inr (Or.inl ⟨i, rfl, ha, rfl⟩)))
                  · rw [h]
                    exact Or.inr (Or.inr (Or.inr (Or.inr
                      ⟨i, d, rfl, ha, Or.inl ⟨hd, rfl⟩⟩)))
                  · rw [h]
                    exact Or.inr (Or.inr (Or.inr (Or.inr
                      ⟨i, d, rfl, ha, Or.inr ⟨hd, rfl⟩⟩)))

theorem handleRequest_413_readBody (verify : List Nat → String → Bool)
    (parse : List Nat → Option AlertPayload)
    (authOk : Nat → Bool) (dispatchOk : GithubDispatch → Bool)
    (cmp : String → String → Ordering) (req : HttpRequest) :
    (handleRequest verify parse authOk dispatchOk cmp req).1.status = 413 →
      readBody req.bodyChunks = none := by
  simp only [handleRequest]
  split
  · intro h; simp at h
  · split
    · intro h; simp at h
    · split
      · intro h; simp at h
      · split
        · intro h; simp at h
        · split
          · intro h; simp at h
          · split
            · rename_i hrb
              intro _; exact hrb
            · split
              · intro h; simp at h
              · split
                · intro h; simp at h
                · rename_i p hp
                  rcases receiveEvent_shape authOk dispatchOk cmp p with
                    h | h | ⟨i, h, ha⟩ | ⟨i, d, h, ha, hd⟩ | ⟨i, d, h, ha, hd⟩ <;>
                    rw [h] <;> intro hc <;> simp at hc

/-! The semantic validation failures of the handler. -/

/-- The semantic validation failures claim C5 lists: the direct package is
absent, its ecosystem is absent or empty, the post-filter dependency set is
empty, or the installation identifier is absent. -/
def semanticFailure (cmp : String → String → Ordering)
    (p : AlertPayload) : Prop :=
  p.dependencyPackage = none ∨
  (∃ pk, p.dependencyPackage = some pk ∧
    (pk.ecosystem = none ∨ pk.ecosystem = some "")) ∨
  (∃ pk, p.dependencyPackage = some pk ∧
    normalizedDependencies cmp (alertNames pk p) = []) ∨
  p.installationId = none

theorem handleAlert_error_of_semanticFailure
    (cmp : String → String → Ordering) (p : AlertPayload)
    (h : semanticFailure cmp p) :
    ∃ msg, handleAlert cmp p = Except.error msg := by
  rcases h with h | ⟨pk, hpk, heco⟩ | ⟨pk, hpk, hnorm⟩ | h
  · exact ⟨"Missing alert.dependency.package", by simp [handleAlert, h]⟩
  · rcases heco with he | he
    · exact ⟨"Missing alert.dependency.package.ecosystem",
        by simp [handleAlert, hpk, he]⟩
    · exact ⟨"Missing alert.dependency.package.ecosystem",
        by simp [handleAlert, hpk, he]⟩
  · cases he : pk.ecosystem with
    | none =>
      exact ⟨"Missing alert.dependency.package.ecosystem",
        by simp [handleAlert, hpk, he]⟩
    | some eco =>
      by_cases h0 : eco = ""
      · exact ⟨"Missing alert.dependency.package.ecosystem",
          by simp [handleAlert, hpk, he, h0]⟩
      · exact ⟨"No dependency names in dependabot alert payload",
          by simp [handleAlert, hpk, he, h0, hnorm]⟩
  · cases hpk : p.dependencyPackage with
    | none =>
      exact ⟨"Missing alert.dependency.package", by simp [handleAlert, hpk]⟩
    | some pk =>
      cases he : pk.ecosystem with
      | none =>
        exact ⟨"Missing alert.dependency.package.ecosystem",
          by simp [handleAlert, hpk, he]⟩
      | some eco =>
        by_cases h0 : eco = ""
        · exact ⟨"Missing alert.dependency.package.ecosystem",
            by simp [handleAlert, hpk, he, h0]⟩
        · by_cases hn : normalizedDependencies cmp (alertNames pk p) = []
          · exact ⟨"No dependency names in dependabot alert payload",
              by simp [handleAlert, hpk, he, h0, hn]⟩
          · exact ⟨"Missing installation.id in webhook payload",
              by simp [handleAlert, hpk, he, h0, hn, h]⟩

/-! Concrete artifacts for witnesses and counterexamples. -/

/-- ASCII bytes of a string (the request bodies used below are ASCII, so
code points and UTF-8 bytes coincide). -/
def strBytes (s : String) : List Nat :=
  s.data.map Char.toNat

/-- An HMAC oracle that accepts every signature (the valid-signature case). -/
def vTrue : List Nat → String → Bool := fun _ _ => true

/-- An HMAC oracle that rejects every signature (the mismatch case). -/
def vFalse : List Nat → String → Bool := fun _ _ => false

/-- A JSON oracle for malformed bodies: decoding always fails. -/
def parseNone : List Nat → Option AlertPayload := fun _ => none

/-- Outcome oracle under which every issued `appAuth` await resolves. -/
def authAllOk : Nat → Bool := fun _ => true

/-- Outcome oracle under which every issued dispatch await resolves. -/
def dispatchAllOk : GithubDispatch → Bool := fun _ => true

/-- A syntactically valid POST to the webhook endpoint with all three
protocol headers and a small body. -/
def signedRequest : HttpRequest :=
  { method := "POST", url := some "/webhook",
    deliveryHeader := some "d-1", eventHeader := some "dependabot_alert",
    signatureHeader := some "sha256=f00", bodyChunks := [strBytes "body-1"] }

/-! Claim C6: signature mismatch. -/

/-- C6: for every request that passes the gates before the body read and
whose signature fails verification against the received body bytes, the
response is 401 `invalid_signature` and the effect trace contains only the
signature check: the body is never parsed and no outbound call is made.
The false verdict yields this reported rejection, not the 500 of the
exception path. -/
theorem c6_invalid_signature_401 (verify : List Nat → String → Bool)
    (parse : List Nat → Option AlertPayload)
    (authOk : Nat → Bool) (dispatchOk : GithubDispatch → Bool)
    (cmp : String → String → Ordering) (req : HttpRequest)
    (bytes : List Nat)
    (h : reachesBodyRead req)
    (hrb : readBody req.bodyChunks = some bytes)
    (hv : verify bytes (req.signatureHeader.getD "") = false) :
    handleRequest verify parse authOk dispatchOk cmp req =
      (⟨401, RespBody.errorCode "invalid_signature"⟩, [Effect.sigCheck]) := by
  rw [handleRequest_of_reachesBodyRead verify parse authOk dispatchOk cmp req h, hrb]
  simp [hv]

/-- Witness for C6: a concrete webhook request whose signature the HMAC
oracle rejects. -/
theorem c6_witness :
    reachesBodyRead signedRequest ∧
    handleRequest vFalse parseNone authAllOk dispatchAllOk lexCompare signedRequest =
      (⟨401, RespBody.errorCode "invalid_signature"⟩, [Effect.sigCheck]) :=
  ⟨⟨"/webhook", rfl, rfl, Or.inl rfl, by decide, rfl, by decide⟩,
   c6_invalid_signature_401 vFalse parseNone authAllOk dispatchAllOk
     lexCompare signedRequest
     (strBytes "body-1")
     ⟨"/webhook", rfl, rfl, Or.inl rfl, by decide, rfl, by decide⟩
     rfl rfl⟩

/-! Claim C7: body-size ceiling. -/

/-- C7: for every request that passes the gates before the body read, a
body exceeding 1,048,576 bytes is answered 413 `payload_too_large` with an
empty effect trace (no signature verification, no parsing, no outbound
call); conversely a 413 response can only arise from a body exceeding
1,048,576 bytes, so a body of exactly the limit or fewer bytes is never
rejected by this gate. -/
theorem c7_body_limit_413 (verify : List Nat → String → Bool)
    (parse : List Nat → Option AlertPayload)
    (authOk : Nat → Bool) (dispatchOk : GithubDispatch → Bool)
    (cmp : String → String → Ordering) (req : HttpRequest)
    (h : reachesBodyRead req) :
    (1048576 < req.bodyChunks.flatten.length →
      handleRequest verify parse authOk dispatchOk cmp req =
        (⟨413, RespBody.errorCode "payload_too_large"⟩, [])) ∧
    ((handleRequest verify parse authOk dispatchOk cmp req).1.status = 413 →
      1048576 < req.bodyChunks.flatten.length) := by
  constructor
  · intro hlen
    rw [handleRequest_of_reachesBodyRead verify parse authOk dispatchOk cmp req h,
      (readBody_none_iff req.bodyChunks).mpr hlen]
  · intro h413
    exact (readBody_none_iff req.bodyChunks).mp
      (handleRequest_413_readBody verify parse authOk dispatchOk cmp req h413)

/-- A webhook request whose single body chunk has 1,048,577 bytes. -/
def bigBodyRequest : HttpRequest :=
  { method := "POST", url := some "/webhook",
    deliveryHeader := some "d-2", eventHeader := some "dependabot_alert",
    signatureHeader := some "sha256=s", bodyChunks := [List.replicate 1048577 0] }

/-- Witness for C7: the oversized concrete request is answered 413 with no
effects. -/
theorem c7_witness :
    reachesBodyRead bigBodyRequest ∧
    handleRequest vTrue parseNone authAllOk dispatchAllOk lexCompare bigBodyRequest =
      (⟨413, RespBody.errorCode "payload_too_large"⟩, []) :=
  ⟨⟨"/webhook", rfl, rfl, Or.inl rfl, by decide, rfl, by decide⟩,
   (c7_body_limit_413 vTrue parseNone authAllOk dispatchAllOk lexCompare
     bigBodyRequest
     ⟨"/webhook", rfl, rfl, Or.inl rfl, by decide, rfl, by decide⟩).1
     (by
       show 1048576 < ([List.replicate 1048577 (0 : Nat)].flatten).length
       rw [List.flatten_cons, List.flatten_nil, List.append_nil,
         List.length_replicate]
       omega)⟩

/-! Claim C9: malformed JSON. -/

/-- C9 (amended): for every request that passes the gates and the signature
check but whose body fails to decode, the response is 400 with
machine-readable code `invalid_json` (the code emits `invalid_json`, not
the `invalid_body` of the claim), and the effect trace shows the signature
check and the parse attempt but no outbound call. -/
theorem c9_invalid_json_400 (verify : List Nat → String → Bool)
    (parse : List Nat → Option AlertPayload)
    (authOk : Nat → Bool) (dispatchOk : GithubDispatch → Bool)
    (cmp : String → String → Ordering) (req : HttpRequest)
    (bytes : List Nat)
    (h : reachesBodyRead req)
    (hrb : readBody req.bodyChunks = some bytes)
    (hv : verify bytes (req.signatureHeader.getD "") = true)
    (hp : parse bytes = none) :
    handleRequest verify parse authOk dispatchOk cmp req =
      (⟨400, RespBody.errorCode "invalid_json"⟩,
       [Effect.sigCheck, Effect.parseAttempt]) := by
  rw [handleRequest_of_reachesBodyRead verify parse authOk dispatchOk cmp req h, hrb]
  simp [hv, hp]

/-- Counterexample for C9 as stated: at a concrete verified request with a
malformed body, the rejection code is `invalid_json`, not the claimed
`invalid_body`. -/
theorem c9_counterexample :
    handleRequest vTrue parseNone authAllOk dispatchAllOk lexCompare signedRequest =
      (⟨400, RespBody.errorCode "invalid_json"⟩,
       [Effect.sigCheck, Effect.parseAttempt]) ∧
    (handleRequest vTrue parseNone authAllOk dispatchAllOk lexCompare signedRequest).1.body ≠
      RespBody.errorCode "invalid_body" := by
  exact ⟨by decide, by decide⟩

/-- Witness for C9 at the concrete malformed-body request. -/
theorem c9_witness :
    reachesBodyRead signedRequest ∧
    handleRequest vTrue parseNone authAllOk dispatchAllOk lexCompare signedRequest =
      (⟨400, RespBody.errorCode "invalid_json"⟩,
       [Effect.sigCheck, Effect.parseAttempt]) :=
  ⟨⟨"/webhook", rfl, rfl, Or.inl rfl, by decide, rfl, by decide⟩,
   c9_invalid_json_400 vTrue parseNone authAllOk dispatchAllOk
     lexCompare signedRequest
     (strBytes "body-1")
     ⟨"/webhook", rfl, rfl, Or.inl rfl, by decide, rfl, by decide⟩
     rfl rfl rfl⟩

/-! Claim C8: missing protocol headers. -/

/-- C8 (amended): for every POST request to the webhook endpoint in which
any of the three protocol headers (delivery id, event kind, signature) is
missing, the response is 400 with machine-readable code
`missing_github_headers` (the code emits `missing_github_headers`, not the
`missing_headers` of the claim), with no effects. -/
theorem c8_missing_headers_400 (verify : List Nat → String → Bool)
    (parse : List Nat → Option AlertPayload)
    (authOk : Nat → Bool) (dispatchOk : GithubDispatch → Bool)
    (cmp : String → String → Ordering) (req : HttpRequest) (u : String)
    (hurl : req.url = some u) (hm : req.method = "POST")
    (hp : pathOf u = "/webhook" ∨ pathOf u = "/")
    (hmiss : req.deliveryHeader = none ∨ req.eventHeader = none ∨
      req.signatureHeader = none) :
    handleRequest verify parse authOk dispatchOk cmp req =
      (⟨400, RespBody.errorCode "missing_github_headers"⟩, []) := by
  rcases hmiss with hh | hh | hh <;> rcases hp with hp | hp <;>
    simp [handleRequest, hurl, hm, hp, hh]

/-- A POST to the webhook endpoint with none of the protocol headers. -/
def noHeadersRequest : HttpRequest :=
  { method := "POST", url := some "/webhook", deliveryHeader := none,
    eventHeader := none, signatureHeader := none, bodyChunks := [] }

/-- Counterexample for C8 as stated: at the concrete header-less request
the rejection code is `missing_github_headers`, not the claimed
`missing_headers`. -/
theorem c8_counterexample :
    handleRequest vTrue parseNone authAllOk dispatchAllOk lexCompare noHeadersRequest =
      (⟨400, RespBody.errorCode "missing_github_headers"⟩, []) ∧
    (handleRequest vTrue parseNone authAllOk dispatchAllOk lexCompare noHeadersRequest).1.body ≠
      RespBody.errorCode "missing_headers" := by
  exact ⟨by decide, by decide⟩

/-- Witness for C8 at the concrete header-less request. -/
theorem c8_witness :
    handleRequest vTrue parseNone authAllOk dispatchAllOk lexCompare noHeadersRequest =
      (⟨400, RespBody.errorCode "missing_github_headers"⟩, []) :=
  c8_missing_headers_400 vTrue parseNone authAllOk dispatchAllOk
    lexCompare noHeadersRequest
    "/webhook" rfl rfl (Or.inl rfl) (Or.inl rfl)

/-! Claim C5: semantic validation failures. -/

/-- C5: every semantic validation failure on an authenticated, well-formed
body that reaches the handler (direct package absent, ecosystem absent or
empty, post-filter dependency set empty, or installation id absent) is
answered 500 `internal_error`, and the effect trace contains no credential
exchange and no dispatch call. -/
theorem c5_semantic_failure_500 (verify : List Nat → String → Bool)
    (parse : List Nat → Option AlertPayload)
    (authOk : Nat → Bool) (dispatchOk : GithubDispatch → Bool)
    (cmp : String → String → Ordering) (req : HttpRequest)
    (bytes : List Nat) (p : AlertPayload)
    (h : reachesBodyRead req)
    (hrb : readBody req.bodyChunks = some bytes)
    (hv : verify bytes (req.signatureHeader.getD "") = true)
    (hp : parse bytes = some p)
    (hact : actionFires p.action = true)
    (hfail : semanticFailure cmp p) :
    handleRequest verify parse authOk dispatchOk cmp req =
      (⟨500, RespBody.errorCode "internal_error"⟩,
       [Effect.sigCheck, Effect.parseAttempt]) := by
  obtain ⟨msg, hmsg⟩ := handleAlert_error_of_semanticFailure cmp p hfail
  rw [handleRequest_of_reachesBodyRead verify parse authOk dispatchOk cmp req h, hrb]
  simp [hv, hp, receiveEvent, hact, hmsg]

/-- A payload with a subscribed action whose direct package lacks the
ecosystem field (concrete scenario 4 of the specification). -/
def noEcoPayload : AlertPayload :=
  { action := some "created", alertNumber := 7,
    dependencyPackage := some { name := some "minimatch", ecosystem := none },
    ghsaId := "GHSA-yyyy", severity := "high",
    vulnerabilities := [{ packageName := some "brace-expansion" }],
    installationId := some 1, repoOwner := "acme", repoName := "widgets" }

/-- A JSON oracle decoding every body to the ecosystem-less payload. -/
def parseNoEco : List Nat → Option AlertPayload := fun _ => some noEcoPayload

/-- Witness for C5: the concrete signed request whose payload lacks the
ecosystem field is answered 500 with no outbound effects. -/
theorem c5_witness :
    reachesBodyRead signedRequest ∧
    actionFires noEcoPayload.action = true ∧
    semanticFailure lexCompare noEcoPayload ∧
    handleRequest vTrue parseNoEco authAllOk dispatchAllOk lexCompare signedRequest =
      (⟨500, RespBody.errorCode "internal_error"⟩,
       [Effect.sigCheck, Effect.parseAttempt]) :=
  ⟨⟨"/webhook", rfl, rfl, Or.inl rfl, by decide, rfl, by decide⟩,
   by decide,
   Or.inr (Or.inl ⟨⟨some "minimatch", none⟩, rfl, Or.inl rfl⟩),
   c5_semantic_failure_500 vTrue parseNoEco authAllOk dispatchAllOk
     lexCompare signedRequest
     (strBytes "body-1") noEcoPayload
     ⟨"/webhook", rfl, rfl, Or.inl rfl, by decide, rfl, by decide⟩
     rfl rfl rfl (by decide)
     (Or.inr (Or.inl ⟨⟨some "minimatch", none⟩, rfl, Or.inl rfl⟩))⟩

/-! Claim C1: concrete scenario 1. -/

set_option maxRecDepth 100000

/-- The exact inbound body of concrete scenario 1 in the specification
(braces written as hexadecimal escapes). Note it has no `action` member. -/
def scenario1Body : String :=
  "\x7b\"alert\":\x7b\"number\":123,\"dependency\":\x7b\"package\":\x7b\"name\":\"minimatch\",\"ecosystem\":\"npm\"\x7d\x7d,\"security_advisory\":\x7b\"ghsa_id\":\"GHSA-xxxx\",\"vulnerabilities\":[\x7b\"package\":\x7b\"name\":\"brace-expansion\"\x7d\x7d]\x7d,\"security_vulnerability\":\x7b\"severity\":\"high\"\x7d\x7d,\"installation\":\x7b\"id\":1\x7d,\"repository\":\x7b\"owner\":\x7b\"login\":\"acme\"\x7d,\"name\":\"widgets\"\x7d\x7d"

/-- The decoded form of `scenario1Body`: every field the handler reads, with
`action := none` because the body carries no `action` member. -/
def scenario1Payload : AlertPayload :=
  { action := none, alertNumber := 123,
    dependencyPackage :=
      some { name := some "minimatch", ecosystem := some "npm" },
    ghsaId := "GHSA-xxxx", severity := "high",
    vulnerabilities := [{ packageName := some "brace-expansion" }],
    installationId := some 1, repoOwner := "acme", repoName := "widgets" }

/-- JSON oracle decoding every body to the scenario 1 payload. -/
def scenario1Parse : List Nat → Option AlertPayload :=
  fun _ => some scenario1Payload

/-- Scenario 1 as an HTTP request: POST to the webhook path, all protocol
headers present, matching event kind, the scenario body as one chunk. -/
def scenario1Request : HttpRequest :=
  { method := "POST", url := some "/webhook",
    deliveryHeader := some "72d3162e", eventHeader := some "dependabot_alert",
    signatureHeader := some "sha256=valid",
    bodyChunks := [strBytes scenario1Body] }

/-- Counterexample for C1 as stated: the scenario 1 body carries no
`action` member, so no action-qualified handler is invoked; the request is
answered 202 but the effect trace contains no credential exchange and no
dispatch call, so the claimed outbound dispatch payload is never produced. -/
theorem c1_counterexample :
    handleRequest vTrue scenario1Parse authAllOk dispatchAllOk lexCompare scenario1Request =
      (⟨202, RespBody.accepted⟩, [Effect.sigCheck, Effect.parseAttempt]) ∧
    dispatchCount
      (handleRequest vTrue scenario1Parse authAllOk dispatchAllOk lexCompare scenario1Request).2 = 0 := by
  exact ⟨by decide, by decide⟩

/-- Scenario 1 body amended with an `"action":"created"` member, making it
one of the subscribed action-qualified events. -/
def scenario1CreatedBody : String :=
  "\x7b\"action\":\"created\",\"alert\":\x7b\"number\":123,\"dependency\":\x7b\"package\":\x7b\"name\":\"minimatch\",\"ecosystem\":\"npm\"\x7d\x7d,\"security_advisory\":\x7b\"ghsa_id\":\"GHSA-xxxx\",\"vulnerabilities\":[\x7b\"package\":\x7b\"name\":\"brace-expansion\"\x7d\x7d]\x7d,\"security_vulnerability\":\x7b\"severity\":\"high\"\x7d\x7d,\"installation\":\x7b\"id\":1\x7d,\"repository\":\x7b\"owner\":\x7b\"login\":\"acme\"\x7d,\"name\":\"widgets\"\x7d\x7d"

/-- Decoded form of the amended scenario body. -/
def scenario1CreatedPayload : AlertPayload :=
  { scenario1Payload with action := some "created" }

/-- JSON oracle decoding every body to the amended scenario payload. -/
def scenario1CreatedParse : List Nat → Option AlertPayload :=
  fun _ => some scenario1CreatedPayload

/-- The amended scenario as an HTTP request. -/
def scenario1CreatedRequest : HttpRequest :=
  { scenario1Request with bodyChunks := [strBytes scenario1CreatedBody] }

/-- C1 (amended): for the scenario 1 body extended with
`"action":"created"`, a valid signature and matching event-kind header, the
pipeline responds 202 and issues exactly one dispatch whose payload is
alert number 123, advisory GHSA-xxxx, severity high, ecosystem npm and
dependency list brace-expansion, minimatch — for every comparator that
orders "brace-expansion" before "minimatch", as the locale comparator
does. -/
theorem c1_scenario1_dispatch (cmp : String → String → Ordering)
    (hcmp : cmp "minimatch" "brace-expansion" = Ordering.gt) :
    handleRequest vTrue scenario1CreatedParse authAllOk dispatchAllOk cmp
      scenario1CreatedRequest =
      (⟨202, RespBody.accepted⟩,
       [Effect.sigCheck, Effect.parseAttempt, Effect.authCall 1,
        Effect.dispatchCall
          { owner := "acme", repo := "widgets",
            event_type := "dependabot-alert-opened",
            client_payload :=
              { alert_number := 123, ghsa_id := "GHSA-xxxx",
                severity := "high", ecosystem := "npm",
                dependencies := ["brace-expansion", "minimatch"] } }]) := by
  have hnorm : normalizedDependencies cmp
      (alertNames { name := some "minimatch", ecosystem := some "npm" }
        scenario1CreatedPayload) = ["brace-expansion", "minimatch"] := by
    show sortInsert cmp "minimatch" ["brace-expansion"] =
      ["brace-expansion", "minimatch"]
    rw [sortInsert, if_pos hcmp]
    rfl
  have hred : handleAlert cmp scenario1CreatedPayload =
      (if normalizedDependencies cmp
          (alertNames { name := some "minimatch", ecosystem := some "npm" }
            scenario1CreatedPayload) = [] then
        Except.error "No dependency names in dependabot alert payload"
      else
        Except.ok (1,
          { owner := "acme", repo := "widgets",
            event_type := "dependabot-alert-opened",
            client_payload :=
              { alert_number := 123, ghsa_id := "GHSA-xxxx",
                severity := "high", ecosystem := "npm",
                dependencies := normalizedDependencies cmp
                  (alertNames
                    { name := some "minimatch", ecosystem := some "npm" }
                    scenario1CreatedPayload) } })) := rfl
  have hha : handleAlert cmp scenario1CreatedPayload =
      Except.ok (1,
        { owner := "acme", repo := "widgets",
          event_type := "dependabot-alert-opened",
          client_payload :=
            { alert_number := 123, ghsa_id := "GHSA-xxxx",
              severity := "high", ecosystem := "npm",
              dependencies := ["brace-expansion", "minimatch"] } }) := by
    rw [hred, hnorm,
      if_neg (by decide : ¬(["brace-expansion", "minimatch"] = ([] : List String)))]
  have hrecv : receiveEvent authAllOk dispatchAllOk cmp
      scenario1CreatedPayload =
      (⟨202, RespBody.accepted⟩,
       [Effect.authCall 1, Effect.dispatchCall
         { owner := "acme", repo := "widgets",
           event_type := "dependabot-alert-opened",
           client_payload :=
             { alert_number := 123, ghsa_id := "GHSA-xxxx",
               severity := "high", ecosystem := "npm",
               dependencies := ["brace-expansion", "minimatch"] } }]) := by
    rw [receiveEvent,
      if_pos (by decide : actionFires scenario1CreatedPayload.action = true),
      hha]
    rfl
  have hstep : handleRequest vTrue scenario1CreatedParse authAllOk
      dispatchAllOk cmp scenario1CreatedRequest =
      ((receiveEvent authAllOk dispatchAllOk cmp scenario1CreatedPayload).1,
       Effect.sigCheck :: Effect.parseAttempt ::
         (receiveEvent authAllOk dispatchAllOk cmp
           scenario1CreatedPayload).2) := rfl
  rw [hstep, hrecv]

/-- Witness for C1 (amended) with the concrete code-point comparator. -/
theorem c1_scenario1_witness :
    handleRequest vTrue scenario1CreatedParse authAllOk dispatchAllOk
      lexCompare scenario1CreatedRequest =
      (⟨202, RespBody.accepted⟩,
       [Effect.sigCheck, Effect.parseAttempt, Effect.authCall 1,
        Effect.dispatchCall
          { owner := "acme", repo := "widgets",
            event_type := "dependabot-alert-opened",
            client_payload :=
              { alert_number := 123, ghsa_id := "GHSA-xxxx",
                severity := "high", ecosystem := "npm",
                dependencies := ["brace-expansion", "minimatch"] } }]) :=
  c1_scenario1_dispatch lexCompare (by decide)

/-! Claim C2: dispatch atomicity. -/

/-- C2 (amended): every request issues at most one credential exchange and
at most one outbound dispatch call; a dispatch call is issued exactly when
the credential exchange has succeeded, so neither partial state —
credential obtained but no call issued, or a call issued without a
credential — is reachable; a request whose issued dispatch call resolves
is answered 202 accepted, while a dispatch call that is issued and then
rejected (for example a 403 from the dispatch endpoint) is answered 500.
The converse of the 202 part fails: a 202-accepted response does not imply
a dispatch was issued (see the counterexample). -/
theorem c2_at_most_one_dispatch (verify : List Nat → String → Bool)
    (parse : List Nat → Option AlertPayload)
    (authOk : Nat → Bool) (dispatchOk : GithubDispatch → Bool)
    (cmp : String → String → Ordering) (req : HttpRequest) :
    dispatchCount (handleRequest verify parse authOk dispatchOk cmp req).2 ≤ 1 ∧
    authCount (handleRequest verify parse authOk dispatchOk cmp req).2 ≤ 1 ∧
    (∀ i, Effect.authCall i ∈
        (handleRequest verify parse authOk dispatchOk cmp req).2 →
      authOk i = true →
      ∃ d, Effect.dispatchCall d ∈
        (handleRequest verify parse authOk dispatchOk cmp req).2) ∧
    (∀ d, Effect.dispatchCall d ∈
        (handleRequest verify parse authOk dispatchOk cmp req).2 →
      ∃ i, Effect.authCall i ∈
          (handleRequest verify parse authOk dispatchOk cmp req).2 ∧
        authOk i = true) ∧
    (∀ d, Effect.dispatchCall d ∈
        (handleRequest verify parse authOk dispatchOk cmp req).2 →
      dispatchOk d = true →
      (handleRequest verify parse authOk dispatchOk cmp req).1 =
        ⟨202, RespBody.accepted⟩) ∧
    (∀ d, Effect.dispatchCall d ∈
        (handleRequest verify parse authOk dispatchOk cmp req).2 →
      dispatchOk d = false →
      (handleRequest verify parse authOk dispatchOk cmp req).1 =
        ⟨500, RespBody.errorCode "internal_error"⟩) := by
  rcases handleRequest_shape verify parse authOk dispatchOk cmp req with
    h | h | h | ⟨i, h, ha, hr⟩ | ⟨i, d, h, ha, hres⟩
  · rw [h]
    refine ⟨by decide, by decide, ?_, ?_, ?_, ?_⟩ <;> intro x hx <;> simp at hx
  · rw [h]
    refine ⟨by decide, by decide, ?_, ?_, ?_, ?_⟩ <;> intro x hx <;> simp at hx
  · rw [h]
    refine ⟨by decide, by decide, ?_, ?_, ?_, ?_⟩ <;> intro x hx <;> simp at hx
  · rw [h, hr]
    refine ⟨?_, ?_, ?_, ?_, ?_, ?_⟩
    · simp [dispatchCount, List.countP_cons, List.countP_nil]
    · simp [authCount, List.countP_cons, List.countP_nil]
    · intro i2 hi2 hok
      simp at hi2
      subst hi2
      rw [hok] at ha
      simp at ha
    · intro d2 hd2
      simp at hd2
    · intro d2 hd2
      simp at hd2
    · intro d2 hd2
      simp at hd2
  · rw [h]
    refine ⟨?_, ?_, ?_, ?_, ?_, ?_⟩
    · simp [dispatchCount, List.countP_cons, List.countP_nil]
    · simp [authCount, List.countP_cons, List.countP_nil]
    · intro i2 hi2 hok
      exact ⟨d, by simp⟩
    · intro d2 hd2
      exact ⟨i, by simp, ha⟩
    · intro d2 hd2 hok
      simp at hd2
      subst hd2
      rcases hres with ⟨_, hr2⟩ | ⟨hd, _⟩
      · exact hr2
      · rw [hok] at hd
        simp at hd
    · intro d2 hd2 hnok
      simp at hd2
      subst hd2
      rcases hres with ⟨hd, _⟩ | ⟨_, hr2⟩
      · rw [hnok] at hd
        simp at hd
      · exact hr2

/-- Witness for C2 (amended) at a concrete request with the
always-resolving outcome oracles. -/
theorem c2_witness :
    dispatchCount (handleRequest vTrue scenario1Parse authAllOk
      dispatchAllOk lexCompare signedRequest).2 ≤ 1 ∧
    authCount (handleRequest vTrue scenario1Parse authAllOk dispatchAllOk
      lexCompare signedRequest).2 ≤ 1 ∧
    (∀ i, Effect.authCall i ∈ (handleRequest vTrue scenario1Parse authAllOk
        dispatchAllOk lexCompare signedRequest).2 →
      authAllOk i = true →
      ∃ d, Effect.dispatchCall d ∈ (handleRequest vTrue scenario1Parse
        authAllOk dispatchAllOk lexCompare signedRequest).2) ∧
    (∀ d, Effect.dispatchCall d ∈ (handleRequest vTrue scenario1Parse
        authAllOk dispatchAllOk lexCompare signedRequest).2 →
      ∃ i, Effect.authCall i ∈ (handleRequest vTrue scenario1Parse authAllOk
          dispatchAllOk lexCompare signedRequest).2 ∧
        authAllOk i = true) ∧
    (∀ d, Effect.dispatchCall d ∈ (handleRequest vTrue scenario1Parse
        authAllOk dispatchAllOk lexCompare signedRequest).2 →
      dispatchAllOk d = true →
      (handleRequest vTrue scenario1Parse authAllOk dispatchAllOk lexCompare
        signedRequest).1 = ⟨202, RespBody.accepted⟩) ∧
    (∀ d, Effect.dispatchCall d ∈ (handleRequest vTrue scenario1Parse
        authAllOk dispatchAllOk lexCompare signedRequest).2 →
      dispatchAllOk d = false →
      (handleRequest vTrue scenario1Parse authAllOk dispatchAllOk lexCompare
        signedRequest).1 = ⟨500, RespBody.errorCode "internal_error"⟩) :=
  c2_at_most_one_dispatch vTrue scenario1Parse authAllOk dispatchAllOk
    lexCompare signedRequest

/-- Outcome oracle under which every issued dispatch await rejects (for
example, the dispatch endpoint answers 403). -/
def dispatchAllFail : GithubDispatch → Bool := fun _ => false

/-- The reachable failure-after-issuance outcome: when the issued dispatch
await rejects, the scenario 1 created-action request is answered 500
`internal_error` although both outbound calls appear in the trace. -/
theorem dispatchFailure_answers_500 :
    handleRequest vTrue scenario1CreatedParse authAllOk dispatchAllFail
      lexCompare scenario1CreatedRequest =
      (⟨500, RespBody.errorCode "internal_error"⟩,
       [Effect.sigCheck, Effect.parseAttempt, Effect.authCall 1,
        Effect.dispatchCall
          { owner := "acme", repo := "widgets",
            event_type := "dependabot-alert-opened",
            client_payload :=
              { alert_number := 123, ghsa_id := "GHSA-xxxx",
                severity := "high", ecosystem := "npm",
                dependencies := ["brace-expansion", "minimatch"] } }]) := by
  decide

/-- A verified `dependabot_alert` delivery whose action is `dismissed`,
which is not one of the four subscribed actions. -/
def dismissedPayload : AlertPayload :=
  { scenario1Payload with action := some "dismissed" }

/-- JSON oracle decoding every body to the dismissed-action payload. -/
def dismissedParse : List Nat → Option AlertPayload :=
  fun _ => some dismissedPayload

/-- Counterexample for C2 as stated: a verified `dependabot_alert` delivery
with action `dismissed` is answered 202 with the plain accepted body — not
the explicit skipped response — yet issues zero outbound calls, refuting
that every 202-accepted-not-skipped request issues exactly one dispatch. -/
theorem c2_counterexample :
    handleRequest vTrue dismissedParse authAllOk dispatchAllOk lexCompare signedRequest =
      (⟨202, RespBody.accepted⟩, [Effect.sigCheck, Effect.parseAttempt]) ∧
    dispatchCount
      (handleRequest vTrue dismissedParse authAllOk dispatchAllOk lexCompare signedRequest).2 = 0 := by
  exact ⟨by decide, by decide⟩

/-! Claim C10: non-string dependency names. -/

theorem filterMap_id_map_some (l : List String) :
    (l.map some).filterMap id = l := by
  induction l with
  | nil => rfl
  | cons x xs ih => simp [List.filterMap_cons, ih]

/-- C10: absent dependency-name entries are silently discarded by
normalization: the normalized output of the name list equals that of its
string-valued entries alone, every output entry stems from a string entry
of the input, and — on a payload whose package and ecosystem checks pass —
the handler fails with the no-dependency-names error exactly when the
post-filter name set is empty. -/
theorem c10_non_string_names_discarded (cmp : String → String → Ordering)
    (p : AlertPayload) (pk : PackageRef) (eco : String)
    (hpk : p.dependencyPackage = some pk)
    (heco : pk.ecosystem = some eco) (hne : eco ≠ "") :
    normalizedDependencies cmp (alertNames pk p) =
      normalizedDependencies cmp
        (((alertNames pk p).filterMap id).map some) ∧
    (∀ e ∈ normalizedDependencies cmp (alertNames pk p),
      ∃ s, some s ∈ alertNames pk p ∧ e = jsTrim s) ∧
    (handleAlert cmp p =
        Except.error "No dependency names in dependabot alert payload" ↔
      normalizedDependencies cmp (alertNames pk p) = []) := by
  have hred : handleAlert cmp p =
      (if normalizedDependencies cmp (alertNames pk p) = [] then
        Except.error "No dependency names in dependabot alert payload"
      else
        match p.installationId with
        | none => Except.error "Missing installation.id in webhook payload"
        | some installationId =>
          if installationId = 0 then
            Except.error "Missing installation.id in webhook payload"
          else
            Except.ok (installationId,
              { owner := p.repoOwner, repo := p.repoName,
                event_type := "dependabot-alert-opened",
                client_payload :=
                  { alert_number := p.alertNumber, ghsa_id := p.ghsaId,
                    severity := p.severity, ecosystem := jsToLower eco,
                    dependencies :=
                      normalizedDependencies cmp (alertNames pk p) } })) := by
    simp only [handleAlert, hpk, heco]
    rw [if_neg hne]
  refine ⟨?_, ?_, ?_⟩
  · rw [normalizedDependencies, normalizedDependencies, filterMap_id_map_some]
  · intro e he
    obtain ⟨⟨s, hs, hes⟩, _⟩ := mem_normalizeNames cmp _ e he
    obtain ⟨o, ho, hos⟩ := List.mem_filterMap.mp hs
    have hoeq : o = some s := hos
    exact ⟨s, hoeq ▸ ho, hes⟩
  · rw [hred]
    constructor
    · intro herr
      by_contra hnorm
      rw [if_neg hnorm] at herr
      cases hi : p.installationId with
      | none => simp only [hi] at herr; simp at herr
      | some i =>
        simp only [hi] at herr
        by_cases h0 : i = 0
        · rw [if_pos h0] at herr; simp at herr
        · rw [if_neg h0] at herr; simp at herr
    · intro hnorm
      rw [if_pos hnorm]

/-- A payload mixing an absent vulnerability package name with present
ones, on which every gate before the dependency check passes. -/
def mixedNamesPayload : AlertPayload :=
  { action := some "created", alertNumber := 9,
    dependencyPackage := some { name := some "lodash", ecosystem := some "npm" },
    ghsaId := "GHSA-zzzz", severity := "low",
    vulnerabilities := [{ packageName := none },
      { packageName := some "left-pad" }],
    installationId := some 4, repoOwner := "acme", repoName := "widgets" }

/-- Witness for C10 at the concrete mixed-name payload. -/
theorem c10_witness :
    normalizedDependencies lexCompare
      (alertNames { name := some "lodash", ecosystem := some "npm" }
        mixedNamesPayload) =
      normalizedDependencies lexCompare
        (((alertNames { name := some "lodash", ecosystem := some "npm" }
          mixedNamesPayload).filterMap id).map some) ∧
    (∀ e ∈ normalizedDependencies lexCompare
      (alertNames { name := some "lodash", ecosystem := some "npm" }
        mixedNamesPayload),
      ∃ s, some s ∈ alertNames { name := some "lodash", ecosystem := some "npm" }
          mixedNamesPayload ∧ e = jsTrim s) ∧
    (handleAlert lexCompare mixedNamesPayload =
        Except.error "No dependency names in dependabot alert payload" ↔
      normalizedDependencies lexCompare
        (alertNames { name := some "lodash", ecosystem := some "npm" }
          mixedNamesPayload) = []) :=
  c10_non_string_names_discarded lexCompare mixedNamesPayload
    { name := some "lodash", ecosystem := some "npm" } "npm" rfl rfl
    (by decide)

example : jsTrim "  a b\t" = "a b" := by decide
example : jsSetDedup ["b", "a", "b", "c", "a"] = ["b", "a", "c"] := by decide
example : jsSort lexCompare ["minimatch", "brace-expansion"] =
    ["brace-expansion", "minimatch"] := by decide
example : normalizedDependencies lexCompare
    [some "minimatch", none, some " minimatch", some "", some "  "] =
    ["minimatch"] := by decide
example : readBody [[1, 2], [3]] = some [1, 2, 3] := by decide
example : pathOf "/webhook?x=1" = "/webhook" := by decide

end Bridge
